import Mathlib

/-!
Verification of the scene-rendering orchestrator (`orchestrator.py`).

The Python source is shallowly embedded: pure helpers become Lean
functions; the polling loops of `wait_for_new_video` become fuel-indexed
recursions over oracles for directory listings, modification times and
file sizes; the retry loop of `run_scene_through_comfy` becomes a
recursion over an oracle giving the outcome of each attempt.  Time advances by
one unit per `time.sleep(1)` poll.
-/

namespace Orchestrator

/-- The placeholder token substituted into the workflow document
(`PROMPT_PLACEHOLDER` in the source). -/
def PROMPT_PLACEHOLDER : String := "__SCENE_PROMPT__"

/-- Predicate `startsList needle l` : does `l` begin with `needle`?  Used to model the
left-to-right scan of Python `str.replace`. -/
def startsList : List Char → List Char → Bool
  | [], _ => true
  | _ :: _, [] => false
  | a :: as, b :: bs => a = b && startsList as bs

/-- One step of Python `str.replace` over the character list: scan left to
right, replacing each non-overlapping occurrence of `o :: olds` by `new`.
The needle is passed as a head and a tail so it is non-empty by
construction. -/
def replaceList (o : Char) (olds new : List Char) : List Char → List Char
  | [] => []
  | c :: rest =>
    if startsList (o :: olds) (c :: rest) then
      new ++ replaceList o olds new (rest.drop olds.length)
    else
      c :: replaceList o olds new rest
termination_by l => l.length
decreasing_by
  · simp [List.length_drop]
    omega
  · simp

/-- Python `s.replace(old, new)`.  `PROMPT_PLACEHOLDER` is non-empty, so the
empty-needle case never arises in `inject_scene_prompt`. -/
def pyReplace (s old new : String) : String :=
  match old.data with
  | [] => s
  | o :: os => ⟨replaceList o os new.data s.data⟩

/-- Predicate `containsSub needle l` : does `l` contain `needle` as a contiguous
run?  Used to state that placeholder-free strings pass through `pyReplace`
unchanged. -/
def containsSub (needle : List Char) : List Char → Bool
  | [] => startsList needle []
  | c :: rest => startsList needle (c :: rest) || containsSub needle rest

/-- The JSON-like documents the workflow template is made of: maps,
sequences, strings and other scalars (numbers, booleans, null). -/
inductive Json where
  | obj : List (String × Json) → Json
  | arr : List Json → Json
  | str : String → Json
  | num : Int → Json
  | bool : Bool → Json
  | null : Json

mutual

/-- Model of `inject_scene_prompt(workflow, scene_prompt)`: rebuild the document,
replacing `PROMPT_PLACEHOLDER` with `scene_prompt` in every string. -/
def inject_scene_prompt (w : Json) (scene_prompt : String) : Json :=
  match w with
  | .obj kvs => .obj (injectObj kvs scene_prompt)
  | .arr xs => .arr (injectArr xs scene_prompt)
  | .str s => .str (pyReplace s PROMPT_PLACEHOLDER scene_prompt)
  | .num n => .num n
  | .bool b => .bool b
  | .null => .null

/-- The dict branch of `_replace`: rebuild key by key. -/
def injectObj (kvs : List (String × Json)) (p : String) : List (String × Json) :=
  match kvs with
  | [] => []
  | (k, v) :: rest => (k, inject_scene_prompt v p) :: injectObj rest p

/-- The list branch of `_replace`: rebuild element by element. -/
def injectArr (xs : List Json) (p : String) : List Json :=
  match xs with
  | [] => []
  | x :: rest => inject_scene_prompt x p :: injectArr rest p

end

mutual

/-- The shape of a document: the same tree with every string content
erased.  Two documents of equal shape have the same keys, sequence
lengths, and non-string scalars. -/
def shape (w : Json) : Json :=
  match w with
  | .obj kvs => .obj (shapeObj kvs)
  | .arr xs => .arr (shapeArr xs)
  | .str _ => .str ("")
  | .num n => .num n
  | .bool b => .bool b
  | .null => .null

def shapeObj (kvs : List (String × Json)) : List (String × Json) :=
  match kvs with
  | [] => []
  | (k, v) :: rest => (k, shape v) :: shapeObj rest

def shapeArr (xs : List Json) : List Json :=
  match xs with
  | [] => []
  | x :: rest => shape x :: shapeArr rest

end

mutual

/-- The string leaves of a document, in traversal order. -/
def strLeaves (w : Json) : List String :=
  match w with
  | .obj kvs => strLeavesObj kvs
  | .arr xs => strLeavesArr xs
  | .str s => [s]
  | .num _ => []
  | .bool _ => []
  | .null => []

def strLeavesObj (kvs : List (String × Json)) : List String :=
  match kvs with
  | [] => []
  | (_, v) :: rest => strLeaves v ++ strLeavesObj rest

def strLeavesArr (xs : List Json) : List String :=
  match xs with
  | [] => []
  | x :: rest => strLeaves x ++ strLeavesArr rest

end

/-- The length-normalization step shared by `call_lmstudio` (lines 117-122)
and `main` (lines 443-447): pad with the last entry or truncate.  Python
indexes `scene_prompts[-1]`, which presumes a non-empty list; `getLastD`
makes the function total, and every claim restricts to non-empty input. -/
def normalizeSceneCount (scene_prompts : List String) (num_scenes : Nat) : List String :=
  if scene_prompts.length < num_scenes then
    scene_prompts ++
      List.replicate (num_scenes - scene_prompts.length) (scene_prompts.getLastD (""))
  else if scene_prompts.length > num_scenes then
    scene_prompts.take num_scenes
  else
    scene_prompts

/-- Model of `comfy_urls[(idx - 1) % num_instances]` from the dispatch loop in `main`. -/
def selectEndpoint (sceneIndex : Nat) (endpoints : List String) : String :=
  endpoints.getD ((sceneIndex - 1) % endpoints.length) ""

/-- A single-quote character, kept out of string literals. -/
def squote : String := String.singleton (Char.ofNat 39)

/-- One manifest line: the word file, a space, then the clip path wrapped in single quotes. -/
def concatLine (p : String) : String := "file " ++ squote ++ p ++ squote

inductive ConcatError where
  | noClips : ConcatError
  | ffmpegFailed : Int → ConcatError
deriving DecidableEq

/-- Observable effects of one `concat_clips` call: the manifest written (if
any), whether ffmpeg was invoked, and the outcome. -/
structure ConcatRun where
  manifest : Option (List String)
  invoked : Bool
  result : Except ConcatError Unit

/-- Model of `concat_clips(clip_paths, final_output)`, with the exit status
of the external process supplied as the oracle `ffmpegExit`. -/
def concat_clips (clip_paths : List String) (ffmpegExit : Int) : ConcatRun :=
  if clip_paths.isEmpty then
    ⟨none, false, .error .noClips⟩
  else
    ⟨some (clip_paths.map concatLine), true,
      if ffmpegExit = 0 then .ok () else .error (.ffmpegFailed ffmpegExit)⟩

/-- Python `dict.get` over our association-list objects. -/
def lookupKey (k : String) : List (String × Json) → Option Json
  | [] => none
  | (k2, v) :: rest => if k2 = k then some v else lookupKey k rest

/-- Python truthiness of a JSON value. -/
def truthy (j : Json) : Bool :=
  match j with
  | .str s => !s.isEmpty
  | .num n => n != 0
  | .bool b => b
  | .null => false
  | .obj kvs => !kvs.isEmpty
  | .arr xs => !xs.isEmpty

mutual

/-- Python `repr` of a JSON-like value (on strings needing no escapes). -/
def pyRepr (j : Json) : String :=
  match j with
  | .str s => squote ++ s ++ squote
  | .num n => toString n
  | .bool b => if b then ("True") else ("False")
  | .null => "None"
  | .obj kvs => "\x7b" ++ pyReprObj kvs ++ "\x7d"
  | .arr xs => "[" ++ pyReprArr xs ++ "]"

def pyReprObj (kvs : List (String × Json)) : String :=
  match kvs with
  | [] => ""
  | [(k, v)] => squote ++ k ++ squote ++ ": " ++ pyRepr v
  | (k, v) :: rest => squote ++ k ++ squote ++ ": " ++ pyRepr v ++ ", " ++ pyReprObj rest

def pyReprArr (xs : List Json) : String :=
  match xs with
  | [] => ""
  | [x] => pyRepr x
  | x :: rest => pyRepr x ++ ", " ++ pyReprArr rest

end

/-- Python `str` of a JSON-like value. -/
def pyStr (j : Json) : String :=
  match j with
  | .str s => s
  | j => pyRepr j

/-- Model of the expression taking the prompt field, else the description
field, else the empty string, from the scene-loading
loop, with Python `or` falling through on falsy values. -/
def promptField (kvs : List (String × Json)) : Json :=
  let p := (lookupKey ("prompt") kvs).getD .null
  if truthy p then p
  else
    let d := (lookupKey ("description") kvs).getD .null
    if truthy d then d else .str ("")

/-- One iteration of the scene-loading loop (lines 411-418): a string is
kept, a dict is reduced via `promptField` then stringified, anything else
is stringified. -/
def sceneRecordToPrompt (s : Json) : String :=
  match s with
  | .str t => t
  | .obj kvs => pyStr (promptField kvs)
  | s => pyStr s

/-- The scene-loading path of `main` (lines 401-420), applied to the parsed
scenes document: unwrap a `scenes` key if the document is a dict carrying
one, then iterate.  Python iterates lists element-wise, dicts by key and
strings by character; other scalars are not iterable. -/
def loadScenes (data : Json) : Option (List String) :=
  let raw :=
    match data with
    | .obj kvs =>
      match lookupKey ("scenes") kvs with
      | some r => r
      | none => data
    | _ => data
  match raw with
  | .arr items => some (items.map sceneRecordToPrompt)
  | .obj kvs => some (kvs.map (fun kv => sceneRecordToPrompt (.str kv.1)))
  | .str s => some (s.data.map (fun c => sceneRecordToPrompt (.str (String.singleton c))))
  | _ => none

/-- The scene-saving path of `main` (lines 431-434 and 367-369):
`json.dump({"scenes": scene_prompts})`, as the document written. -/
def saveScenes (scene_prompts : List String) : Json :=
  .obj [("scenes", .arr (scene_prompts.map .str))]

/-- Python `s.lower()` (ASCII case folding, as used on file names). -/
def lowerStr (s : String) : String := ⟨s.data.map Char.toLower⟩

/-- Python `s.endswith(suf)`. -/
def pyEndsWith (s suf : String) : Bool :=
  startsList suf.data.reverse s.data.reverse

/-- Model of `os.path.join(folder, f)` for a relative second component. -/
def joinPath (a b : String) : String := a ++ "/" ++ b

/-- Model of `list_mp4s(folder)`: keep the names ending in `.mp4` case-insensitively,
joined onto the folder.  `listing` stands for `os.listdir(folder)`. -/
def list_mp4s (folder : String) (listing : List String) : List String :=
  (listing.filter (fun f => pyEndsWith (lowerStr f) ".mp4")).map (fun f => joinPath folder f)

/-- Python `max(l, key=key)` on a non-empty list: the first element with the
largest key. -/
def pyMax (key : String → Nat) (l : List String) : Option String :=
  match l with
  | [] => none
  | x :: xs => some (xs.foldl (fun acc y => if key acc < key y then y else acc) x)

/-- The size-stabilization loop of `wait_for_new_video` (lines 175-192).
`size u` is `os.path.getsize(candidate)` at time `u` (`none` models
`FileNotFoundError`).  Each loop iteration sleeps one time unit; the result
is the time at which the loop exits, so a call starting at time 0 returning
`some n` made exactly `n` size observations.  `fuel` bounds the number of
iterations; `none` means the loop is still running when the fuel runs out —
the loop itself has no exit other than `stable_count` reaching 3. -/
def stabilize (size : Nat → Option Int) (fuel t : Nat)
    (last_size : Int) (stable_count : Nat) : Option Nat :=
  match fuel with
  | 0 => none
  | fuel + 1 =>
    if stable_count < 3 then
      match size t with
      | none => stabilize size fuel (t + 1) (-1) 0
      | some sz =>
        if sz = last_size then stabilize size fuel (t + 1) last_size (stable_count + 1)
        else stabilize size fuel (t + 1) sz 0
    else
      some t

inductive WaitResult where
  | found : String → WaitResult
  | timedOut : WaitResult
deriving DecidableEq

/-- Model of `wait_for_new_video(output_dir, known_files, timeout)` as a fuel-indexed
poll loop.  `listing u` is the directory listing at time `u`, `mtime` the
modification times, `size p u` the byte size of path `p` at time `u`.
`t` is the elapsed time since `start`; each poll sleeps one unit.
`some (found p)` / `some timedOut` are the return and the `TimeoutError`;
`none` means the call is still running after `fuel` loop iterations. -/
def wait_for_new_video (listing : Nat → List String) (mtime : String → Nat)
    (size : String → Nat → Option Int) (output_dir : String)
    (known_files : List String) (timeout : Nat) (t fuel : Nat) : Option WaitResult :=
  match fuel with
  | 0 => none
  | fuel + 1 =>
    if t < timeout then
      match pyMax mtime ((list_mp4s output_dir (listing t)).filter
        (fun p => !known_files.contains p)) with
      | some candidate =>
        match stabilize (size candidate) fuel t (-1) 0 with
        | some _ => some (.found candidate)
        | none => none
      | none =>
        wait_for_new_video listing mtime size output_dir known_files timeout (t + 1) fuel
    else
      some .timedOut

/-- Model of the Python formatted name scene_NN.mp4 with the index
zero-padded to two digits. -/
def pad2 (n : Nat) : String :=
  if n < 10 then ("0") ++ toString n else toString n

def sceneFilename (scene_index : Nat) : String :=
  "scene_" ++ pad2 scene_index ++ ".mp4"

inductive SceneError where
  | submitFailed : SceneError
  | detectTimeout : SceneError
  | copyFailed : SceneError
  | exhausted : SceneError
deriving DecidableEq

/-- The observable outcome of the fallible steps of one dispatch attempt in
`run_scene_through_comfy`: whether the POST to `{comfy_url}/prompt`
succeeded, what `wait_for_new_video` produced (`none` = `TimeoutError`),
and whether `shutil.copy2` succeeded. -/
structure AttemptOutcome where
  postOk : Bool
  detected : Option String
  copyOk : Bool

/-- Which exception a failing attempt raises. -/
def attemptError (o : AttemptOutcome) : SceneError :=
  if o.postOk then
    match o.detected with
    | none => .detectTimeout
    | some _ => .copyFailed
  else .submitFailed

/-- Does the attempt fail at any of its three fallible steps? -/
def attemptFails (o : AttemptOutcome) : Bool :=
  !o.postOk || o.detected.isNone || !o.copyOk

/-- One dispatch attempt (lines 227-254): submit, detect, mark known, copy.
The detected path is added to `known_files` (line 246) before the copy
(line 252); the result pairs the outcome of the attempt with the updated
known-file set. -/
def sceneAttempt (scene_index : Nat) (output_dir : String) (o : AttemptOutcome)
    (known_files : List String) : Except SceneError String × List String :=
  if o.postOk then
    match o.detected with
    | none => (.error .detectTimeout, known_files)
    | some video_path =>
      let known2 := known_files.insert video_path
      let dest_path := joinPath output_dir (sceneFilename scene_index)
      if o.copyOk then (.ok dest_path, known2)
      else (.error .copyFailed, known2)
  else
    (.error .submitFailed, known_files)

/-- The retry loop of `run_scene_through_comfy` (lines 225-265), from
`attempt` up to `max_retries`.  `outcomes i` gives the outcome of attempt `i`;
`slept` accumulates the `time.sleep(3)` between attempts.  The
`.exhausted` error is the `RuntimeError` after the loop, reachable only
when the range is empty. -/
def run_scene_through_comfy (outcomes : Nat → AttemptOutcome) (scene_index : Nat)
    (output_dir : String) (max_retries attempt : Nat) (known_files : List String)
    (slept : Nat) : Except SceneError String × List String × Nat :=
  if h : max_retries < attempt then
    (.error .exhausted, known_files, slept)
  else
    match sceneAttempt scene_index output_dir (outcomes attempt) known_files with
    | (.ok dest, k2) => (.ok dest, k2, slept)
    | (.error e, k2) =>
      if h2 : attempt = max_retries then (.error e, k2, slept)
      else
        run_scene_through_comfy outcomes scene_index output_dir max_retries
          (attempt + 1) k2 (slept + 3)
termination_by max_retries + 1 - attempt
decreasing_by omega

/-! ## Helper lemmas -/

mutual

theorem shape_inject (w : Json) (p : String) :
    shape (inject_scene_prompt w p) = shape w :=
  match w with
  | .obj kvs => by simp [inject_scene_prompt, shape, shapeObj_injectObj kvs p]
  | .arr xs => by simp [inject_scene_prompt, shape, shapeArr_injectArr xs p]
  | .str s => by simp [inject_scene_prompt, shape]
  | .num n => rfl
  | .bool b => rfl
  | .null => rfl

theorem shapeObj_injectObj (kvs : List (String × Json)) (p : String) :
    shapeObj (injectObj kvs p) = shapeObj kvs :=
  match kvs with
  | [] => rfl
  | (k, v) :: rest => by
      simp [injectObj, shapeObj, shape_inject v p, shapeObj_injectObj rest p]

theorem shapeArr_injectArr (xs : List Json) (p : String) :
    shapeArr (injectArr xs p) = shapeArr xs :=
  match xs with
  | [] => rfl
  | x :: rest => by
      simp [injectArr, shapeArr, shape_inject x p, shapeArr_injectArr rest p]

end

mutual

theorem strLeaves_inject (w : Json) (p : String) :
    strLeaves (inject_scene_prompt w p) =
      (strLeaves w).map (fun s => pyReplace s PROMPT_PLACEHOLDER p) :=
  match w with
  | .obj kvs => by
      simp [inject_scene_prompt, strLeaves, strLeavesObj_injectObj kvs p]
  | .arr xs => by
      simp [inject_scene_prompt, strLeaves, strLeavesArr_injectArr xs p]
  | .str s => rfl
  | .num n => rfl
  | .bool b => rfl
  | .null => rfl

theorem strLeavesObj_injectObj (kvs : List (String × Json)) (p : String) :
    strLeavesObj (injectObj kvs p) =
      (strLeavesObj kvs).map (fun s => pyReplace s PROMPT_PLACEHOLDER p) :=
  match kvs with
  | [] => rfl
  | (k, v) :: rest => by
      simp [injectObj, strLeavesObj, strLeaves_inject v p,
        strLeavesObj_injectObj rest p]

theorem strLeavesArr_injectArr (xs : List Json) (p : String) :
    strLeavesArr (injectArr xs p) =
      (strLeavesArr xs).map (fun s => pyReplace s PROMPT_PLACEHOLDER p) :=
  match xs with
  | [] => rfl
  | x :: rest => by
      simp [injectArr, strLeavesArr, strLeaves_inject x p,
        strLeavesArr_injectArr rest p]

end

theorem replaceList_of_not_contains (o : Char) (olds new l : List Char)
    (h : containsSub (o :: olds) l = false) :
    replaceList o olds new l = l := by
  induction l with
  | nil => simp [replaceList]
  | cons c rest ih =>
    rw [containsSub, Bool.or_eq_false_iff] at h
    simp only [replaceList, h.1, Bool.false_eq_true, if_false]
    rw [ih h.2]

theorem pyReplace_of_not_contains (s old new : String)
    (h : containsSub old.data s.data = false) :
    pyReplace s old new = s := by
  cases hd : old.data with
  | nil => simp [pyReplace, hd]
  | cons o os =>
    rw [hd] at h
    simp [pyReplace, hd, replaceList_of_not_contains o os new.data s.data h]

/-! ## Claim theorems -/

/-- C4: `inject_scene_prompt` is a pure transformation: the output
document has the same shape as the input (same keys, same sequence
lengths, non-string scalars unchanged), every string leaf is the original
with every occurrence of `PROMPT_PLACEHOLDER` replaced by the prompt, and
a string not containing the placeholder passes through unchanged. -/
theorem inject_scene_prompt_spec (w : Json) (p : String) :
    shape (inject_scene_prompt w p) = shape w ∧
    strLeaves (inject_scene_prompt w p) =
      (strLeaves w).map (fun s => pyReplace s PROMPT_PLACEHOLDER p) ∧
    ∀ s : String, containsSub PROMPT_PLACEHOLDER.data s.data = false →
      pyReplace s PROMPT_PLACEHOLDER p = s :=
  ⟨shape_inject w p, strLeaves_inject w p,
    fun s hs => pyReplace_of_not_contains s _ p hs⟩

theorem inject_scene_prompt_spec_witness :
    shape (inject_scene_prompt
        (Json.obj [("a", Json.str ("A __SCENE_PROMPT__ B")),
          ("b", Json.arr [Json.num 3, Json.str ("plain")])]) "P")
      = shape (Json.obj [("a", Json.str ("A __SCENE_PROMPT__ B")),
          ("b", Json.arr [Json.num 3, Json.str ("plain")])]) ∧
    strLeaves (inject_scene_prompt
        (Json.obj [("a", Json.str ("A __SCENE_PROMPT__ B")),
          ("b", Json.arr [Json.num 3, Json.str ("plain")])]) "P")
      = (strLeaves (Json.obj [("a", Json.str ("A __SCENE_PROMPT__ B")),
          ("b", Json.arr [Json.num 3, Json.str ("plain")])])).map
            (fun s => pyReplace s PROMPT_PLACEHOLDER ("P")) ∧
    ∀ s : String, containsSub PROMPT_PLACEHOLDER.data s.data = false →
      pyReplace s PROMPT_PLACEHOLDER ("P") = s :=
  inject_scene_prompt_spec
    (Json.obj [("a", Json.str ("A __SCENE_PROMPT__ B")),
      ("b", Json.arr [Json.num 3, Json.str ("plain")])]) "P"

/-- C5: Scene-prompt length normalization: for a non-empty list of M
prompts and target N, the output has length exactly N; M < N pads with the
last entry repeated N−M more times after the original list; M > N
truncates to the first N entries. -/
theorem normalizeSceneCount_spec (ps : List String) (n : Nat) (h : 1 ≤ ps.length) :
    (normalizeSceneCount ps n).length = n ∧
    (ps.length < n →
      normalizeSceneCount ps n =
        ps ++ List.replicate (n - ps.length) (ps.getLastD (""))) ∧
    (n < ps.length → normalizeSceneCount ps n = ps.take n) := by
  unfold normalizeSceneCount
  refine ⟨?_, ?_, ?_⟩
  · by_cases h1 : ps.length < n
    · simp [h1]
      omega
    · by_cases h2 : n < ps.length
      · simp [h1, h2]
        omega
      · simp [h1, h2]
        omega
  · intro h1
    simp [h1]
  · intro h2
    simp [Nat.lt_asymm h2, h2]

theorem normalizeSceneCount_spec_witness :
    (normalizeSceneCount ["a", "b"] 4).length = 4 ∧
    (["a", "b"].length < 4 →
      normalizeSceneCount ["a", "b"] 4 =
        ["a", "b"] ++ List.replicate (4 - ["a", "b"].length) (["a", "b"].getLastD (""))) ∧
    (4 < ["a", "b"].length → normalizeSceneCount ["a", "b"] 4 = ["a", "b"].take 4) :=
  normalizeSceneCount_spec ["a", "b"] 4 (by decide)

/-- C8: `concat_clips` rejects an empty clip list before invoking
ffmpeg; for a non-empty list it writes a manifest of exactly one line per
clip in the given order, and a non-zero ffmpeg exit status yields an error
carrying that exit code. -/
theorem concat_clips_spec (clip_paths : List String) (ffmpegExit : Int) :
    (clip_paths = [] →
      (concat_clips clip_paths ffmpegExit).invoked = false ∧
      (concat_clips clip_paths ffmpegExit).result = .error .noClips) ∧
    (clip_paths ≠ [] →
      (concat_clips clip_paths ffmpegExit).manifest = some (clip_paths.map concatLine) ∧
      (concat_clips clip_paths ffmpegExit).invoked = true ∧
      (ffmpegExit ≠ 0 →
        (concat_clips clip_paths ffmpegExit).result =
          .error (.ffmpegFailed ffmpegExit))) := by
  constructor
  · intro he
    subst he
    simp [concat_clips]
  · intro hne
    have hemp : clip_paths.isEmpty = false := by
      simpa [List.isEmpty_iff] using hne
    refine ⟨by simp [concat_clips, hemp], by simp [concat_clips, hemp], ?_⟩
    intro hz
    simp [concat_clips, hemp, hz]

theorem concat_clips_spec_witness :
    (["a.mp4", "b.mp4"] = ([] : List String) →
      (concat_clips ["a.mp4", "b.mp4"] 1).invoked = false ∧
      (concat_clips ["a.mp4", "b.mp4"] 1).result = .error .noClips) ∧
    (["a.mp4", "b.mp4"] ≠ ([] : List String) →
      (concat_clips ["a.mp4", "b.mp4"] 1).manifest =
        some (["a.mp4", "b.mp4"].map concatLine) ∧
      (concat_clips ["a.mp4", "b.mp4"] 1).invoked = true ∧
      ((1 : Int) ≠ 0 →
        (concat_clips ["a.mp4", "b.mp4"] 1).result = .error (.ffmpegFailed 1))) :=
  concat_clips_spec ["a.mp4", "b.mp4"] 1

/-- C9: Round-trip of the persisted scene list: saving an ordered list
of prompt strings as `{"scenes": [...]}` and loading it back through the
scene-loading path yields the same ordered list. -/
theorem scenes_round_trip (prompts : List String) :
    loadScenes (saveScenes prompts) = some prompts := by
  have hmap : ∀ l : List String, (l.map Json.str).map sceneRecordToPrompt = l := by
    intro l
    induction l with
    | nil => rfl
    | cons a t ih => simpa [sceneRecordToPrompt] using ih
  simp [loadScenes, saveScenes, lookupKey, hmap]

theorem scenes_round_trip_witness :
    loadScenes (saveScenes ["first scene", "second scene"]) =
      some ["first scene", "second scene"] :=
  scenes_round_trip ["first scene", "second scene"]

theorem getD_eq_get (l : List String) (n : Nat) (d : String) (h : n < l.length) :
    l.getD n d = l.get ⟨n, h⟩ := by
  induction l generalizing n with
  | nil => simp at h
  | cons a t ih =>
    cases n with
    | zero => rfl
    | succ m => simpa [List.getD] using ih m (by simpa using h)

/-- C7: `selectEndpoint` is deterministic and total: for a non-empty
endpoint list it returns the entry at index `(sceneIndex - 1) mod L`
(hence always a configured endpoint); for `L = 1` every scene gets the
same endpoint; and for distinct configured endpoints, scene indices
`1..L` all get distinct endpoints. -/
theorem selectEndpoint_spec (endpoints : List String) (h : endpoints ≠ []) :
    (∀ i, ∃ hlt : (i - 1) % endpoints.length < endpoints.length,
      selectEndpoint i endpoints = endpoints.get ⟨(i - 1) % endpoints.length, hlt⟩ ∧
      selectEndpoint i endpoints ∈ endpoints) ∧
    (endpoints.length = 1 →
      ∀ i j, selectEndpoint i endpoints = selectEndpoint j endpoints) ∧
    (endpoints.Nodup → ∀ i j, 1 ≤ i → i ≤ endpoints.length → 1 ≤ j →
      j ≤ endpoints.length → i ≠ j →
      selectEndpoint i endpoints ≠ selectEndpoint j endpoints) := by
  have hL : 0 < endpoints.length := List.length_pos.mpr h
  have hsel : ∀ i, ∃ hlt : (i - 1) % endpoints.length < endpoints.length,
      selectEndpoint i endpoints = endpoints.get ⟨(i - 1) % endpoints.length, hlt⟩ :=
    fun i => ⟨Nat.mod_lt _ hL, getD_eq_get _ _ _ _⟩
  refine ⟨?_, ?_, ?_⟩
  · intro i
    obtain ⟨hlt, he⟩ := hsel i
    exact ⟨hlt, he, he ▸ List.get_mem _ _ _⟩
  · intro h1 i j
    simp [selectEndpoint, h1, Nat.mod_one]
  · intro hnd i j hi1 hiL hj1 hjL hij
    obtain ⟨hlti, hei⟩ := hsel i
    obtain ⟨hltj, hej⟩ := hsel j
    rw [hei, hej]
    intro heq
    rw [hnd.get_inj_iff] at heq
    have hv : (i - 1) % endpoints.length = (j - 1) % endpoints.length :=
      congrArg Fin.val heq
    rw [Nat.mod_eq_of_lt (by omega), Nat.mod_eq_of_lt (by omega)] at hv
    omega

theorem selectEndpoint_spec_witness :
    selectEndpoint 1 ["u", "v", "w"] ∈ ["u", "v", "w"] ∧
    selectEndpoint 1 ["u", "v", "w"] ≠ selectEndpoint 2 ["u", "v", "w"] :=
  ⟨((selectEndpoint_spec ["u", "v", "w"] (by decide)).1 1).2.2,
   (selectEndpoint_spec ["u", "v", "w"] (by decide)).2.2 (by decide) 1 2
     (by decide) (by decide) (by decide) (by decide) (by decide)⟩

theorem foldl_max_mem (key : String → Nat) (xs : List String) (a : String) :
    xs.foldl (fun acc y => if key acc < key y then y else acc) a ∈ a :: xs := by
  induction xs generalizing a with
  | nil => simp
  | cons y ys ih =>
    have h2 := ih (if key a < key y then y else a)
    simp only [List.foldl_cons]
    rcases List.mem_cons.mp h2 with h3 | h3
    · rw [h3]
      by_cases hc : key a < key y <;> simp [hc]
    · simp [h3]

theorem pyMax_mem {key : String → Nat} {l : List String} {x : String}
    (h : pyMax key l = some x) : x ∈ l := by
  cases l with
  | nil => simp [pyMax] at h
  | cons a t =>
    simp only [pyMax, Option.some.injEq] at h
    exact h ▸ foldl_max_mem key t a

theorem startsList_append (n xs ys : List Char) (h : startsList n xs = true) :
    startsList n (xs ++ ys) = true := by
  induction n generalizing xs with
  | nil => simp [startsList]
  | cons a as ih =>
    cases xs with
    | nil => simp [startsList] at h
    | cons b bs =>
      simp only [startsList, Bool.and_eq_true] at h ⊢
      exact ⟨h.1, ih bs h.2⟩

theorem pyEndsWith_lower_joinPath (dir f : String)
    (h : pyEndsWith (lowerStr f) ".mp4" = true) :
    pyEndsWith (lowerStr (joinPath dir f)) ".mp4" = true := by
  unfold pyEndsWith at h ⊢
  have hd : (lowerStr (joinPath dir f)).data
      = (lowerStr (dir ++ "/")).data ++ (lowerStr f).data := by
    simp [joinPath, lowerStr, String.data_append, List.map_append, List.append_assoc]
  rw [hd, List.reverse_append]
  exact startsList_append _ _ _ h

theorem wait_found_mem (listing : Nat → List String) (mtime : String → Nat)
    (size : String → Nat → Option Int) (dir : String) (known : List String)
    (timeout : Nat) :
    ∀ fuel t p, wait_for_new_video listing mtime size dir known timeout t fuel
        = some (.found p) →
      ∃ u, p ∈ (list_mp4s dir (listing u)).filter (fun q => !known.contains q) := by
  intro fuel
  induction fuel with
  | zero =>
    intro t p h
    simp [wait_for_new_video] at h
  | succ f ih =>
    intro t p h
    rw [wait_for_new_video] at h
    split at h
    · split at h
      next cand heq =>
        split at h
        next v hs =>
          simp only [Option.some.injEq, WaitResult.found.injEq] at h
          exact ⟨t, h ▸ pyMax_mem heq⟩
        next hs => simp at h
      next heq => exact ih (t + 1) p h
    · simp at h

/-- C10: Every path returned by `wait_for_new_video` names a file
ending in `.mp4` case-insensitively and is not a member of the known-file
set passed in. -/
theorem wait_for_new_video_result_invariant (listing : Nat → List String)
    (mtime : String → Nat) (size : String → Nat → Option Int) (dir : String)
    (known : List String) (timeout t fuel : Nat) (p : String)
    (h : wait_for_new_video listing mtime size dir known timeout t fuel
        = some (.found p)) :
    pyEndsWith (lowerStr p) ".mp4" = true ∧ known.contains p = false := by
  obtain ⟨u, hu⟩ := wait_found_mem listing mtime size dir known timeout fuel t p h
  rw [List.mem_filter] at hu
  obtain ⟨hmem, hkn⟩ := hu
  have hk2 : known.contains p = false := by simpa using hkn
  unfold list_mp4s at hmem
  rw [List.mem_map] at hmem
  obtain ⟨f, hf, rfl⟩ := hmem
  rw [List.mem_filter] at hf
  exact ⟨pyEndsWith_lower_joinPath dir f hf.2, hk2⟩

theorem wait_for_new_video_result_invariant_witness :
    pyEndsWith (lowerStr ("out/Clip.MP4")) ".mp4" = true ∧
    ([] : List String).contains ("out/Clip.MP4") = false :=
  wait_for_new_video_result_invariant (fun _ => ["Clip.MP4"]) (fun _ => 0)
    (fun _ _ => some 7) "out" [] 1 0 6 "out/Clip.MP4" (by decide)

theorem stabilize_const_step (c : Int) (f t : Nat) (last : Int) (cnt : Nat)
    (hcnt : cnt < 3) :
    stabilize (fun _ => some c) (f + 1) t last cnt =
      if c = last then stabilize (fun _ => some c) f (t + 1) last (cnt + 1)
      else stabilize (fun _ => some c) f (t + 1) c 0 := by
  simp only [stabilize]
  simp [hcnt]

theorem stabilize_const (c : Int) (hc : c ≠ -1) (k t : Nat) :
    stabilize (fun _ => some c) (k + 5) t (-1) 0 = some (t + 4) := by
  rw [show k + 5 = (k + 4) + 1 from rfl,
    stabilize_const_step c (k + 4) t (-1) 0 (by omega), if_neg hc]
  rw [show k + 4 = (k + 3) + 1 from rfl,
    stabilize_const_step c (k + 3) (t + 1) c 0 (by omega), if_pos rfl]
  rw [show k + 3 = (k + 2) + 1 from rfl,
    stabilize_const_step c (k + 2) (t + 1 + 1) c 1 (by omega), if_pos rfl]
  rw [show k + 2 = (k + 1) + 1 from rfl,
    stabilize_const_step c (k + 1) (t + 1 + 1 + 1) c 2 (by omega), if_pos rfl]
  simp only [stabilize]
  rw [if_neg (by omega)]

theorem stabilize_const_ge (c : Int) (hc : c ≠ -1) (fuel t : Nat) (hf : 5 ≤ fuel) :
    stabilize (fun _ => some c) fuel t (-1) 0 = some (t + 4) := by
  obtain ⟨k, rfl⟩ : ∃ k, fuel = k + 5 := ⟨fuel - 5, by omega⟩
  exact stabilize_const c hc k t

theorem stabilize_changing (g : Nat → Int) (hg : ∀ u, g (u + 1) ≠ g u) :
    ∀ fuel t last, last ≠ g t →
      stabilize (fun u => some (g u)) fuel t last 0 = none := by
  intro fuel
  induction fuel with
  | zero =>
    intro t last h
    rfl
  | succ f ih =>
    intro t last h
    have h2 : ¬ (g t = last) := fun hh => h hh.symm
    simp only [stabilize]
    simpa [h2] using ih (t + 1) (g t) (Ne.symm (hg t))

theorem wait_timedOut (listing : Nat → List String) (mtime : String → Nat)
    (size : String → Nat → Option Int) (dir : String) (known : List String)
    (timeout : Nat)
    (hempty : ∀ u, (list_mp4s dir (listing u)).filter (fun q => !known.contains q) = []) :
    ∀ fuel t, timeout - t < fuel →
      wait_for_new_video listing mtime size dir known timeout t fuel = some .timedOut := by
  intro fuel
  induction fuel with
  | zero =>
    intro t h
    exact absurd h (by omega)
  | succ f ih =>
    intro t h
    rw [wait_for_new_video]
    by_cases ht : t < timeout
    · rw [if_pos ht, hempty t]
      exact ih (t + 1) (by omega)
    · rw [if_neg ht]

/-- C1, amended: The timeout of `wait_for_new_video` applies only
while searching for a new file: if no new file ever appears, the call
returns the timeout error once `timeoutSeconds` elapse; but once a
candidate is observed, there is no timeout check in the stabilization
loop — with byte-size samples that never repeat, the call is still
running after any number of poll iterations (even long past
`timeoutSeconds`) and never raises the timeout error. -/
theorem wait_for_new_video_timeout_only_while_searching
    (listing0 listing : Nat → List String) (mtime : String → Nat)
    (size : String → Nat → Option Int) (dir : String) (known : List String)
    (timeout : Nat) (cand : String) (g : Nat → Int) (fuel : Nat)
    (hempty : ∀ u,
      (list_mp4s dir (listing0 u)).filter (fun q => !known.contains q) = [])
    (hfuel : timeout < fuel)
    (hcand : pyMax mtime
        ((list_mp4s dir (listing 0)).filter (fun q => !known.contains q)) = some cand)
    (hsize : ∀ u, size cand u = some (g u))
    (hg : ∀ u, g (u + 1) ≠ g u) (hg0 : g 0 ≠ -1) (ht : 0 < timeout) :
    wait_for_new_video listing0 mtime size dir known timeout 0 fuel
      = some .timedOut ∧
    (∀ fuel2,
      wait_for_new_video listing mtime size dir known timeout 0 fuel2 = none ∧
      wait_for_new_video listing mtime size dir known timeout 0 fuel2
        ≠ some .timedOut) := by
  constructor
  · exact wait_timedOut listing0 mtime size dir known timeout hempty fuel 0 (by omega)
  · intro fuel2
    have hnone : wait_for_new_video listing mtime size dir known timeout 0 fuel2 = none := by
      cases fuel2 with
      | zero => rfl
      | succ f =>
        rw [wait_for_new_video, if_pos ht]
        have hS : stabilize (size cand) f 0 (-1) 0 = none := by
          rw [show size cand = fun u => some (g u) from funext hsize]
          exact stabilize_changing g hg f 0 (-1) (fun hh => hg0 hh.symm)
        simp only [hcand, hS]
    exact ⟨hnone, by simp [hnone]⟩

theorem wait_for_new_video_timeout_only_while_searching_witness :
    wait_for_new_video (fun _ => []) (fun _ => 0) (fun _ t => some (t : Int))
        "out" [] 5 0 6 = some WaitResult.timedOut ∧
    wait_for_new_video (fun _ => ["clip.mp4"]) (fun _ => 0) (fun _ t => some (t : Int))
        "out" [] 5 0 100 = none :=
  ⟨(wait_for_new_video_timeout_only_while_searching (fun _ => [])
      (fun _ => ["clip.mp4"]) (fun _ => 0) (fun _ t => some (t : Int)) "out" []
      5 "out/clip.mp4" (fun u => (u : Int)) 6 (fun _ => rfl) (by omega)
      (by decide) (fun _ => rfl)
      (fun u => by show ((u + 1 : Nat) : Int) ≠ ((u : Nat) : Int); omega)
      (by decide) (by decide)).1,
   ((wait_for_new_video_timeout_only_while_searching (fun _ => [])
      (fun _ => ["clip.mp4"]) (fun _ => 0) (fun _ t => some (t : Int)) "out" []
      5 "out/clip.mp4" (fun u => (u : Int)) 6 (fun _ => rfl) (by omega)
      (by decide) (fun _ => rfl)
      (fun u => by show ((u + 1 : Nat) : Int) ≠ ((u : Nat) : Int); omega)
      (by decide) (by decide)).2 100).1⟩

/-- C1, counterexample: A candidate `clip.mp4` is observed at once,
its size grows at every sample, and the timeout is 5; after 100 poll
iterations — far beyond the timeout — the call has neither returned nor
raised the timeout error (it is still inside the stabilization loop). -/
theorem wait_for_new_video_unstable_no_timeout_counterexample :
    wait_for_new_video (fun _ => ["clip.mp4"]) (fun _ => 0)
      (fun _ t => some (t : Int)) "out" [] 5 0 100 = none := by decide

/-- C2, amended: With a fresh file `F` whose observed size is the
constant 100, `wait_for_new_video` returns `F` — but only after exactly
4 size observations, not 3: `last_size` starts at −1, so the first
observation only sets the baseline and leaves the counter at 0, and the
following 3 consecutive equal-size observations raise the counter to the
threshold 3. -/
theorem wait_for_new_video_four_samples (dir F : String) (known : List String)
    (mtime : String → Nat) (timeout fuel : Nat)
    (hmp4 : pyEndsWith (lowerStr F) ".mp4" = true)
    (hkn : known.contains (joinPath dir F) = false)
    (ht : 0 < timeout) (hf : 6 ≤ fuel) :
    wait_for_new_video (fun _ => [F]) mtime (fun _ _ => some 100) dir known
        timeout 0 fuel = some (.found (joinPath dir F)) ∧
    (∀ t, stabilize (fun _ => some (100 : Int)) (fuel - 1) t (-1) 0 = some (t + 4)) := by
  obtain ⟨f, rfl⟩ : ∃ f, fuel = f + 1 := ⟨fuel - 1, by omega⟩
  constructor
  · rw [wait_for_new_video, if_pos ht]
    have hl : (list_mp4s dir [F]).filter (fun q => !known.contains q)
        = [joinPath dir F] := by
      have hkn2 : joinPath dir F ∉ known := by simpa using hkn
      simp [list_mp4s, hmp4, hkn2]
    rw [hl]
    have hpm : pyMax mtime [joinPath dir F] = some (joinPath dir F) := rfl
    have hS : stabilize (fun _ => some (100 : Int)) f 0 (-1) 0 = some (0 + 4) :=
      stabilize_const_ge 100 (by decide) f 0 (by omega)
    simp only [hpm, hS]
  · intro t
    exact stabilize_const_ge 100 (by decide) (f + 1 - 1) t (by omega)

theorem wait_for_new_video_four_samples_witness :
    wait_for_new_video (fun _ => ["render.mp4"]) (fun _ => 0) (fun _ _ => some 100)
        "comfy" [] 1 0 6 = some (WaitResult.found (joinPath ("comfy") "render.mp4")) ∧
    stabilize (fun _ => some (100 : Int)) 5 0 (-1) 0 = some 4 :=
  ⟨(wait_for_new_video_four_samples ("comfy") "render.mp4" [] (fun _ => 0) 1 6
      (by decide) (by decide) (by decide) (by decide)).1,
   (wait_for_new_video_four_samples ("comfy") "render.mp4" [] (fun _ => 0) 1 6
      (by decide) (by decide) (by decide) (by decide)).2 0⟩

/-- C2 counterexample: with the candidate size constantly 100 from
the first sample on, the stabilization loop has not returned after 3
observations: it exits only at time 4, i.e. after 4 `getsize` samples
(the first merely replaces the initial `last_size = -1`). -/
theorem stabilize_three_samples_not_enough :
    stabilize (fun _ => some (100 : Int)) 100 0 (-1) 0 ≠ some 3 ∧
    stabilize (fun _ => some (100 : Int)) 100 0 (-1) 0 = some 4 := by decide

/-- C3, amended: Within one dispatch attempt of
`run_scene_through_comfy`, the detected source path is added to the
known-file set immediately after detection and before the copy: whenever
detection succeeds, the attempt leaves the known set equal to the old set
with the detected path inserted, whether or not the copy succeeds — in
particular a failing copy still leaves the path marked known.  A
successful copy returns `destDir/scene_{index, zero-padded to 2
digits}.mp4`. -/
theorem sceneAttempt_marks_known_before_copy (idx : Nat) (dir : String)
    (o : AttemptOutcome) (known : List String) (p : String)
    (hpost : o.postOk = true) (hdet : o.detected = some p) :
    (sceneAttempt idx dir o known).2 = known.insert p ∧
    (o.copyOk = false → (sceneAttempt idx dir o known).1 = .error .copyFailed) ∧
    (o.copyOk = true →
      (sceneAttempt idx dir o known).1 = .ok (joinPath dir (sceneFilename idx))) := by
  by_cases hc : o.copyOk <;> simp [sceneAttempt, hpost, hdet, hc]

theorem sceneAttempt_marks_known_before_copy_witness :
    (sceneAttempt 2 "out" ⟨true, some ("comfy/w.mp4"), false⟩ ["old.mp4"]).2
      = ["old.mp4"].insert ("comfy/w.mp4") ∧
    ((⟨true, some ("comfy/w.mp4"), false⟩ : AttemptOutcome).copyOk = false →
      (sceneAttempt 2 "out" ⟨true, some ("comfy/w.mp4"), false⟩ ["old.mp4"]).1
        = .error .copyFailed) ∧
    ((⟨true, some ("comfy/w.mp4"), false⟩ : AttemptOutcome).copyOk = true →
      (sceneAttempt 2 "out" ⟨true, some ("comfy/w.mp4"), false⟩ ["old.mp4"]).1
        = .ok (joinPath ("out") (sceneFilename 2))) :=
  sceneAttempt_marks_known_before_copy 2 "out" ⟨true, some ("comfy/w.mp4"), false⟩
    ["old.mp4"] "comfy/w.mp4" rfl rfl

/-- C3, counterexample: An attempt whose submission and detection
succeed but whose copy raises has already mutated the known-file set: the
detected path is in it even though the attempt failed, so the set is not
left unchanged as claimed. -/
theorem sceneAttempt_failed_copy_mutates_known :
    (sceneAttempt 1 "out" ⟨true, some ("comfy/v.mp4"), false⟩ []).1
      = .error .copyFailed ∧
    (sceneAttempt 1 "out" ⟨true, some ("comfy/v.mp4"), false⟩ []).2 = ["comfy/v.mp4"] ∧
    ["comfy/v.mp4"] ≠ ([] : List String) :=
  ⟨rfl, by decide, by decide⟩

theorem sceneAttempt_fst_of_fails (idx : Nat) (dir : String) (o : AttemptOutcome)
    (known : List String) (h : attemptFails o = true) :
    (sceneAttempt idx dir o known).1 = .error (attemptError o) := by
  by_cases hp : o.postOk
  · cases hd : o.detected with
    | none => simp [sceneAttempt, attemptError, hp, hd]
    | some p =>
      have hcopy : o.copyOk = false := by
        simpa [attemptFails, hp, hd] using h
      simp [sceneAttempt, attemptError, hp, hd, hcopy]
  · simp [sceneAttempt, attemptError, hp]

theorem sceneAttempt_fst_of_ok (idx : Nat) (dir : String) (o : AttemptOutcome)
    (known : List String) (h : attemptFails o = false) :
    (sceneAttempt idx dir o known).1 = .ok (joinPath dir (sceneFilename idx)) := by
  obtain ⟨po, det, co⟩ := o
  cases po <;> cases co <;> cases det <;>
    simp_all [attemptFails, sceneAttempt]

theorem run_scene_ok_from (outcomes : Nat → AttemptOutcome) (idx : Nat)
    (dir : String) (max_retries k : Nat) (hk : k ≤ max_retries)
    (hsucc : attemptFails (outcomes k) = false) :
    ∀ n a known slept, k - a = n → a ≤ k →
      (∀ i, a ≤ i → i < k → attemptFails (outcomes i) = true) →
      ∃ kn, run_scene_through_comfy outcomes idx dir max_retries a known slept =
        (.ok (joinPath dir (sceneFilename idx)), kn, slept + 3 * (k - a)) := by
  intro n
  induction n with
  | zero =>
    intro a known slept hn ha _hfail
    have hak : a = k := by omega
    subst hak
    rw [run_scene_through_comfy, dif_neg (by omega)]
    have h1 := sceneAttempt_fst_of_ok idx dir (outcomes a) known hsucc
    split
    next dest k2 hsa =>
      rw [hsa] at h1
      simp only at h1
      injection h1 with h1
      subst h1
      refine ⟨k2, ?_⟩
      have h0 : slept + 3 * (a - a) = slept := by omega
      rw [h0]
    next e k2 hsa =>
      rw [hsa] at h1
      simp at h1
  | succ n ihn =>
    intro a known slept hn ha hfail
    have hak : a < k := by omega
    have hf := hfail a le_rfl hak
    rw [run_scene_through_comfy, dif_neg (by omega)]
    have h1 := sceneAttempt_fst_of_fails idx dir (outcomes a) known hf
    split
    next dest k2 hsa =>
      rw [hsa] at h1
      simp at h1
    next e k2 hsa =>
      rw [dif_neg (show ¬ a = max_retries by omega)]
      obtain ⟨kn, hkn⟩ := ihn (a + 1) k2 (slept + 3) (by omega) (by omega)
        (fun i hi1 hi2 => hfail i (by omega) hi2)
      rw [show slept + 3 + 3 * (k - (a + 1)) = slept + 3 * (k - a) from by omega] at hkn
      exact ⟨kn, hkn⟩

theorem run_scene_all_fail_from (outcomes : Nat → AttemptOutcome) (idx : Nat)
    (dir : String) (max_retries : Nat)
    (hfail : ∀ i, 1 ≤ i → i ≤ max_retries → attemptFails (outcomes i) = true) :
    ∀ n a known slept, max_retries - a = n → 1 ≤ a → a ≤ max_retries →
      (run_scene_through_comfy outcomes idx dir max_retries a known slept).1 =
        .error (attemptError (outcomes max_retries)) := by
  intro n
  induction n with
  | zero =>
    intro a known slept hn ha1 ha
    have hak : a = max_retries := by omega
    subst hak
    rw [run_scene_through_comfy, dif_neg (by omega)]
    have h1 := sceneAttempt_fst_of_fails idx dir (outcomes a) known (hfail a ha1 le_rfl)
    split
    next dest k2 hsa =>
      rw [hsa] at h1
      simp at h1
    next e k2 hsa =>
      rw [hsa] at h1
      simp only at h1
      injection h1 with h1
      subst h1
      rw [dif_pos rfl]
  | succ n ihn =>
    intro a known slept hn ha1 ha
    have hak : a < max_retries := by omega
    have hf := hfail a ha1 (by omega)
    rw [run_scene_through_comfy, dif_neg (by omega)]
    have h1 := sceneAttempt_fst_of_fails idx dir (outcomes a) known hf
    split
    next dest k2 hsa =>
      rw [hsa] at h1
      simp at h1
    next e k2 hsa =>
      rw [dif_neg (show ¬ a = max_retries by omega)]
      exact ihn (a + 1) k2 (slept + 3) (by omega) (by omega) (by omega)

/-- C6: Retry policy of `run_scene_through_comfy`: attempts run from 1
to `maxAttempts` with the same scene index; a failed non-final attempt is
followed by a fixed 3-unit sleep and a retry, so a run whose first
success is at attempt `k` returns the destination path having slept
exactly `3·(k−1)` units and without exhausting the remaining attempts;
if every attempt up to `maxAttempts` fails, the error of the final attempt
propagates. -/
theorem run_scene_retry_spec (outcomes : Nat → AttemptOutcome) (idx : Nat)
    (dir : String) (known : List String) (max_retries k : Nat)
    (h1 : 1 ≤ k) (h2 : k ≤ max_retries) :
    ((∀ i, 1 ≤ i → i < k → attemptFails (outcomes i) = true) →
      attemptFails (outcomes k) = false →
      ∃ kn, run_scene_through_comfy outcomes idx dir max_retries 1 known 0 =
        (.ok (joinPath dir (sceneFilename idx)), kn, 3 * (k - 1))) ∧
    ((∀ i, 1 ≤ i → i ≤ max_retries → attemptFails (outcomes i) = true) →
      (run_scene_through_comfy outcomes idx dir max_retries 1 known 0).1 =
        .error (attemptError (outcomes max_retries))) := by
  constructor
  · intro hfail hsucc
    obtain ⟨kn, hkn⟩ := run_scene_ok_from outcomes idx dir max_retries k h2 hsucc
      (k - 1) 1 known 0 rfl h1 (fun i hi1 hi2 => hfail i hi1 hi2)
    rw [show 0 + 3 * (k - 1) = 3 * (k - 1) from by omega] at hkn
    exact ⟨kn, hkn⟩
  · intro hfail
    exact run_scene_all_fail_from outcomes idx dir max_retries hfail
      (max_retries - 1) 1 known 0 rfl le_rfl (by omega)

theorem run_scene_retry_spec_witness :
    ∃ kn, run_scene_through_comfy
        (fun i => if i ≤ 2 then ⟨false, none, false⟩
          else ⟨true, some ("comfy/v.mp4"), true⟩)
        7 "out" 4 1 [] 0
      = (.ok (joinPath ("out") (sceneFilename 7)), kn, 3 * (3 - 1)) :=
  (run_scene_retry_spec
      (fun i => if i ≤ 2 then ⟨false, none, false⟩
        else ⟨true, some ("comfy/v.mp4"), true⟩)
      7 "out" [] 4 3 (by decide) (by decide)).1
    (fun i hi1 hi2 => by interval_cases i <;> decide) (by decide)

end Orchestrator
